import Mathlib

/-!
Verification of `paperless_owner_tag_sync.py` (class `PaperlessSync` and the
webhook route of class `WebhookServer`).

The remote Paperless instance is modelled as an explicit `World` state: the
documents, users and tags that live on the server, boolean flags saying
whether each kind of network call currently succeeds (a Python
`requests.RequestException` is modelled by the flag being `false`), and the
id the server will assign to the next created tag.  Every HTTP helper of the
Python class becomes a pure function on `World`; the stateful helpers
(`create_tag`, `update_document_tags`) also return the updated `World`.
Python dicts keyed by ints/strings become association lists with
first-match lookup; keys are only ever added when absent, so first-match
lookup agrees with dict semantics.
-/

namespace Paperless

/-- A Paperless document as seen through the REST API: id, title, nullable
owner (a user id; `doc.get('owner')` in the source) and the list of tag ids
(`doc.get('tags', [])`). -/
structure Document where
  id : Nat
  title : String
  owner : Option Nat
  tags : List Nat
deriving DecidableEq

/-- The state of the remote Paperless server plus the reachability of each
API endpoint.  `usersFetchOk = false` models `GET /api/users/` raising
`RequestException` (the Python code then returns `{}`), and similarly for
the other flags.  `nextTagId` is the id the server assigns to the next tag
created via `POST /api/tags/`. -/
structure World where
  docs : List Document
  users : List (Nat × String)
  tags : List (String × Nat)
  usersFetchOk : Bool
  tagsFetchOk : Bool
  docsFetchOk : Bool
  createOk : Bool
  updateOk : Bool
  nextTagId : Nat
deriving DecidableEq

/-- Configuration of `PaperlessSync.__init__`: the tag prefix (field
`tag_prefix`, default `"owner:"`, written `pfx` here) and the
owner-to-tag mapping (`owner_tag_mapping`). -/
structure Config where
  pfx : String
  owner_tag_mapping : List (String × String)
deriving DecidableEq

/-- The `stats` dict of `full_sync`. -/
structure Stats where
  total : Nat
  processed : Nat
  succeeded : Nat
  failed : Nat
deriving DecidableEq

/-- First-match association-list lookup, modelling Python `d[k]` /
`k in d`. -/
def alookup {α β : Type} [DecidableEq α] (k : α) : List (α × β) → Option β
  | [] => none
  | (a, b) :: ps => if a = k then some b else alookup k ps

/-- `get_document`: `GET /api/documents/{id}/`.  Returns `none` both when
the document does not exist and when the call fails — the Python code
collapses the two cases into `None`. -/
def get_document (w : World) (document_id : Nat) : Option Document :=
  w.docs.find? (fun d => d.id == document_id)

/-- `get_users`: `GET /api/users/`; on `RequestException` the Python code
returns the empty dict. -/
def get_users (w : World) : List (Nat × String) :=
  if w.usersFetchOk then w.users else []

/-- `get_tags`: `GET /api/tags/`; on `RequestException` the Python code
returns the empty dict. -/
def get_tags (w : World) : List (String × Nat) :=
  if w.tagsFetchOk then w.tags else []

/-- `get_all_documents`: paginated `GET /api/documents/`; on failure (also
mid-pagination) the Python code discards everything and returns `[]`. -/
def get_all_documents (w : World) : List Document :=
  if w.docsFetchOk then w.docs else []

/-- `create_tag`: `POST /api/tags/`.  The remote platform enforces that tag
names are unique (spec §3 invariant: "a tag name is unique within the
remote system"), so creation fails when a tag of that name already exists
on the server; `createOk = false` models any other request failure.  On
success the server assigns `nextTagId` and the function returns it. -/
def create_tag (w : World) (tag_name : String) : Option Nat × World :=
  if w.createOk ∧ (alookup tag_name w.tags).isNone then
    (some w.nextTagId,
      { w with tags := w.tags ++ [(tag_name, w.nextTagId)],
               nextTagId := w.nextTagId + 1 })
  else (none, w)

/-- Server-side effect of `PATCH /api/documents/{id}/` with a full tag-id
list: replace the tag list of the (unique) document with that id.  Document
ids are the server's primary keys, so at most one entry matches; the
function rewrites the first match. -/
def update_docs : List Document → Nat → List Nat → List Document
  | [], _, _ => []
  | d :: ds, did, ts =>
    if d.id == did then { d with tags := ts } :: ds
    else d :: update_docs ds did ts

/-- `update_document_tags`: `PATCH /api/documents/{id}/` with body
`{'tags': tag_ids}`; returns `False` (and changes nothing) on request
failure. -/
def update_document_tags (w : World) (document_id : Nat) (tag_ids : List Nat) :
    Bool × World :=
  if w.updateOk then
    (true, { w with docs := update_docs w.docs document_id tag_ids })
  else (false, w)

/-- `get_owner_tag_name`: mapped value if `username` is a key of
`owner_tag_mapping`, else `tag_prefix + username`. -/
def get_owner_tag_name (cfg : Config) (username : String) : String :=
  match alookup username cfg.owner_tag_mapping with
  | some t => t
  | none => cfg.pfx ++ username

/-- The owner test of the sync routines:
`if not owner_id or owner_id not in users: skip`.  Returns the username
when the document has a truthy owner id (`None` and `0` are falsy in
Python) that is present in the user directory. -/
def owner_username (users : List (Nat × String)) (doc : Document) :
    Option String :=
  match doc.owner with
  | none => none
  | some oid => if oid = 0 then none else alookup oid users

/-- `sync_document_owner_tag`: reconcile one document.  Mirrors the source
line by line: fetch the document (fail if absent), fetch fresh user and tag
snapshots, skip ownerless documents with success, resolve the tag name,
fail on a missing explicitly-mapped tag, create missing auto-generated
tags, no-op if the tag id is already attached, otherwise patch the tag list
with the id appended.  Returns the Python boolean together with the world
after the side effects. -/
def sync_document_owner_tag (cfg : Config) (w : World) (document_id : Nat) :
    Bool × World :=
  match get_document w document_id with
  | none => (false, w)
  | some doc =>
    let users := get_users w
    let tags := get_tags w
    let current_tag_ids := doc.tags
    match owner_username users doc with
    | none => (true, w)
    | some username =>
      let owner_tag_name := get_owner_tag_name cfg username
      match alookup owner_tag_name tags with
      | some owner_tag_id =>
        if owner_tag_id ∈ current_tag_ids then (true, w)
        else update_document_tags w document_id
              (current_tag_ids ++ [owner_tag_id])
      | none =>
        if (alookup username cfg.owner_tag_mapping).isSome then (false, w)
        else
          match create_tag w owner_tag_name with
          | (none, w1) => (false, w1)
          | (some owner_tag_id, w1) =>
            if owner_tag_id ∈ current_tag_ids then (true, w1)
            else update_document_tags w1 document_id
                  (current_tag_ids ++ [owner_tag_id])

/-- The body of the `for doc in documents` loop of `full_sync`.  The loop
threads the mutable `stats` dict, the in-memory `tags` dict (tags created
during the run are added to it) and the server state; `users` is the
snapshot fetched once before the loop. -/
def full_sync_step (cfg : Config) (users : List (Nat × String))
    (st : Stats × List (String × Nat) × World) (doc : Document) :
    Stats × List (String × Nat) × World :=
  let stats := { st.1 with processed := st.1.processed + 1 }
  let tags := st.2.1
  let w := st.2.2
  match owner_username users doc with
  | none => (stats, tags, w)
  | some username =>
    let owner_tag_name := get_owner_tag_name cfg username
    match alookup owner_tag_name tags with
    | some owner_tag_id =>
      if owner_tag_id ∈ doc.tags then
        ({ stats with succeeded := stats.succeeded + 1 }, tags, w)
      else
        match update_document_tags w doc.id (doc.tags ++ [owner_tag_id]) with
        | (true, w1) =>
          ({ stats with succeeded := stats.succeeded + 1 }, tags, w1)
        | (false, w1) =>
          ({ stats with failed := stats.failed + 1 }, tags, w1)
    | none =>
      if (alookup username cfg.owner_tag_mapping).isSome then
        ({ stats with failed := stats.failed + 1 }, tags, w)
      else
        match create_tag w owner_tag_name with
        | (none, w1) => ({ stats with failed := stats.failed + 1 }, tags, w1)
        | (some owner_tag_id, w1) =>
          let tags1 := tags ++ [(owner_tag_name, owner_tag_id)]
          if owner_tag_id ∈ doc.tags then
            ({ stats with succeeded := stats.succeeded + 1 }, tags1, w1)
          else
            match update_document_tags w1 doc.id
                    (doc.tags ++ [owner_tag_id]) with
            | (true, w2) =>
              ({ stats with succeeded := stats.succeeded + 1 }, tags1, w2)
            | (false, w2) =>
              ({ stats with failed := stats.failed + 1 }, tags1, w2)

/-- `full_sync`: fetch all documents, users and tags once; abort with the
zero stats dict when the document list is empty (which is also what a
failed document fetch produces); otherwise run the per-document loop over
the snapshot. -/
def full_sync (cfg : Config) (w : World) : Stats × World :=
  let documents := get_all_documents w
  let users := get_users w
  let tags := get_tags w
  if documents.isEmpty then
    ({ total := 0, processed := 0, succeeded := 0, failed := 0 }, w)
  else
    let init : Stats × List (String × Nat) × World :=
      ({ total := documents.length, processed := 0, succeeded := 0,
         failed := 0 }, tags, w)
    let res := documents.foldl (full_sync_step cfg users) init
    (res.1, res.2.2)

/-- Digit run to the integer `int()` produces on it (digits are modelled as
ASCII `0`-`9`). -/
def digitsToNat (ds : List Char) : Nat :=
  ds.foldl (fun n c => n * 10 + (c.toNat - 48)) 0

/-- `"/documents/"` reversed, for matching at the end of a URL. -/
def docUrlKeyRev : List Char := "/documents/".data.reverse

/-- The first regex of `extract_document_id_from_url`:
`re.search(r'/documents/(\d+)/?\x24', url)`.  The anchor also matches just
before a single trailing newline, so one trailing `'\n'` is stripped first;
then an optional trailing `'/'`, then a nonempty maximal digit run that
must be preceded by `"/documents/"`. -/
def search_documents_pattern (url : String) : Option Nat :=
  let cs := url.data
  let cs := if cs.getLast? = some '\n' then cs.dropLast else cs
  let r := cs.reverse
  let r := if r.head? = some '/' then r.tail else r
  let ds := r.takeWhile Char.isDigit
  if ds.isEmpty then none
  else if docUrlKeyRev.isPrefixOf (r.drop ds.length) then
    some (digitsToNat ds.reverse)
  else none

/-- The literal part of the second regex, `document_id=`. -/
def docIdKey : List Char := "document_id=".data

/-- The second regex of `extract_document_id_from_url`:
`re.search(r'document_id=(\d+)', url)` — the leftmost occurrence of the
literal `document_id=` followed by at least one digit; the capture is the
maximal digit run after the `=`. -/
def scan_document_id : List Char → Option Nat
  | [] => none
  | c :: cs =>
    let ds := ((c :: cs).drop docIdKey.length).takeWhile Char.isDigit
    if docIdKey.isPrefixOf (c :: cs) ∧ ¬ds.isEmpty then
      some (digitsToNat ds)
    else scan_document_id cs

/-- `extract_document_id_from_url`: first the `/documents/<digits>/?`
suffix pattern, then the `document_id=<digits>` pattern, else `None`.
(The `except (ValueError, TypeError)` branch is unreachable for string
input: a captured digit run always parses as an integer.) -/
def extract_document_id_from_url (url : String) : Option Nat :=
  match search_documents_pattern url with
  | some n => some n
  | none => scan_document_id url.data

/-- The webhook request body as the handler sees it: `hasJson` is the
truthiness of `request.get_json()` (`false` for an unparseable body and for
an empty JSON object), `url` is `data.get('url')` (`none` when the field is
absent). -/
structure WebhookPayload where
  hasJson : Bool
  url : Option String
deriving DecidableEq

/-- The `POST /webhook/document` route `document_webhook`.  Returns
`((http_status, document_id_in_body), world_after)`.  Mirrors the source:
no truthy JSON → 400; missing or empty (falsy) `url` field → 200
`'ignored'`; unextractable document id, or the falsy id `0` → 400;
otherwise reconcile (the `time.sleep(2)` settle delay has no effect in the
model) and answer 200 on success, 500 on failure. -/
def document_webhook (cfg : Config) (w : World) (p : WebhookPayload) :
    (Nat × Option Nat) × World :=
  if ¬p.hasJson then ((400, none), w)
  else
    match p.url with
    | none => ((200, none), w)
    | some u =>
      if u = "" then ((200, none), w)
      else
        match extract_document_id_from_url u with
        | none => ((400, none), w)
        | some did =>
          if did = 0 then ((400, none), w)
          else
            let res := sync_document_owner_tag cfg w did
            ((if res.1 then 200 else 500, some did), res.2)

/-! ### Helper lemmas -/

theorem alookup_append_of_none {α β : Type} [DecidableEq α] (k : α)
    (l1 l2 : List (α × β)) (h : alookup k l1 = none) :
    alookup k (l1 ++ l2) = alookup k l2 := by
  induction l1 with
  | nil => rfl
  | cons p l ih =>
    obtain ⟨a, b⟩ := p
    by_cases hk : a = k
    · simp [alookup, hk] at h
    · simp only [alookup, List.cons_append, if_neg hk] at h ⊢
      exact ih h

theorem alookup_singleton_self {α β : Type} [DecidableEq α] (k : α) (b : β) :
    alookup k [(k, b)] = some b := by
  simp [alookup]

/-- `owner_username` only reads the `owner` field of the document. -/
theorem owner_username_set_tags (users : List (Nat × String)) (d : Document)
    (ts : List Nat) :
    owner_username users { d with tags := ts } = owner_username users d := rfl

/-- With an empty user directory every document counts as ownerless. -/
theorem owner_username_nil (d : Document) : owner_username [] d = none := by
  unfold owner_username
  cases d.owner with
  | none => rfl
  | some oid => by_cases h : oid = 0 <;> simp [h, alookup]

/-- Rewriting one document's tag list does not disturb the keys:
a successful lookup of the patched id finds the patched document. -/
theorem find_update_docs (docs : List Document) (did : Nat) (ts : List Nat)
    (d : Document) (h : docs.find? (fun x => x.id == did) = some d) :
    (update_docs docs did ts).find? (fun x => x.id == did)
      = some { d with tags := ts } := by
  induction docs with
  | nil => simp [List.find?] at h
  | cons a l ih =>
    by_cases hb : a.id = did
    · have hbeq : (a.id == did) = true := by simpa using hb
      simp only [List.find?_cons, hbeq] at h
      obtain rfl : a = d := by injection h
      simp [update_docs, hbeq, List.find?_cons]
    · have hbeq : (a.id == did) = false := by simpa using hb
      simp only [List.find?_cons, hbeq] at h
      simp only [update_docs, hbeq, Bool.false_eq_true, if_false,
        List.find?_cons]
      exact ih h

/-- World-state reads unaffected by a document patch. -/
theorem get_users_set_docs (w : World) (ds : List Document) :
    get_users { w with docs := ds } = get_users w := rfl

theorem get_tags_set_docs (w : World) (ds : List Document) :
    get_tags { w with docs := ds } = get_tags w := rfl

/-- `create_tag` never touches the document store. -/
theorem create_tag_docs (w : World) (n : String) :
    ((create_tag w n).2).docs = w.docs := by
  unfold create_tag
  split <;> rfl

/-- A failed `create_tag` changes nothing. -/
theorem create_tag_none (w : World) (n : String) (w1 : World)
    (h : create_tag w n = (none, w1)) : w1 = w := by
  unfold create_tag at h
  split at h
  · cases h
  · injection h with h1 h2
    exact h2.symm

/-- A successful `create_tag` returns the next id and registers the name on
the server. -/
theorem create_tag_some (w : World) (n : String) (tid : Nat) (w1 : World)
    (h : create_tag w n = (some tid, w1)) :
    tid = w.nextTagId ∧ w.createOk = true ∧ alookup n w.tags = none ∧
    w1 = { w with tags := w.tags ++ [(n, tid)],
                  nextTagId := w.nextTagId + 1 } := by
  unfold create_tag at h
  split at h
  · next hc =>
    injection h with h1 h2
    injection h1 with h1
    subst h1 h2
    refine ⟨rfl, by simpa using hc.1, ?_, rfl⟩
    have := hc.2
    cases hl : alookup n w.tags with
    | none => rfl
    | some x => rw [hl] at this; cases this
  · cases h

/-! ### Additivity of the tag-list mutation -/

/-- How one reconciliation outcome may relate a document's new tag list to
its old one: untouched, or exactly one id it did not already carry appended
at the end.  In particular no pre-existing id is ever dropped. -/
def tags_preserved (d d' : Document) : Prop :=
  d'.id = d.id ∧
    (d'.tags = d.tags ∨ ∃ t, t ∉ d.tags ∧ d'.tags = d.tags ++ [t])

theorem tags_preserved_refl (l : List Document) :
    List.Forall₂ tags_preserved l l := by
  induction l with
  | nil => exact List.Forall₂.nil
  | cons a l ih => exact List.Forall₂.cons ⟨rfl, Or.inl rfl⟩ ih

/-- Patching the found document's tag list to `d.tags ++ [t]` is additive
with respect to the original document store. -/
theorem forall2_update_self (docs : List Document) (did : Nat) (d : Document)
    (h : docs.find? (fun x => x.id == did) = some d) (t : Nat)
    (ht : t ∉ d.tags) :
    List.Forall₂ tags_preserved docs (update_docs docs did (d.tags ++ [t])) := by
  induction docs with
  | nil => simp [List.find?] at h
  | cons a l ih =>
    by_cases hb : a.id = did
    · have hbeq : (a.id == did) = true := by simpa using hb
      simp only [List.find?_cons, hbeq] at h
      obtain rfl : a = d := by injection h
      simp only [update_docs, hbeq, if_true]
      exact List.Forall₂.cons ⟨rfl, Or.inr ⟨t, ht, rfl⟩⟩ (tags_preserved_refl l)
    · have hbeq : (a.id == did) = false := by simpa using hb
      simp only [List.find?_cons, hbeq] at h
      simp only [update_docs, hbeq, Bool.false_eq_true, if_false]
      exact List.Forall₂.cons ⟨rfl, Or.inl rfl⟩ (ih h)

/-- Additivity is stable under further patches keyed by a document of the
original store, provided ids are unique (they are the server's primary
keys). -/
theorem forall2_update_mem (orig cur : List Document)
    (hF : List.Forall₂ tags_preserved orig cur) :
    (orig.map Document.id).Nodup → ∀ d, d ∈ orig → ∀ t, t ∉ d.tags →
    List.Forall₂ tags_preserved orig (update_docs cur d.id (d.tags ++ [t])) := by
  induction hF with
  | nil => intro _ d hd; simp at hd
  | cons ra tl ih =>
    rename_i a b l1 l2
    intro hnd d hd t ht
    simp only [List.map_cons, List.nodup_cons] at hnd
    by_cases hb : b.id = d.id
    · have had : a.id = d.id := by rw [← ra.1, hb]
      have hda : d = a := by
        rcases List.mem_cons.mp hd with h | h
        · exact h
        · exact absurd (by rw [had]; exact List.mem_map_of_mem Document.id h)
            hnd.1
      subst hda
      simp only [update_docs, show (b.id == d.id) = true by simpa using hb,
        if_true]
      exact List.Forall₂.cons ⟨ra.1, Or.inr ⟨t, ht, rfl⟩⟩ tl
    · have hbeq : (b.id == d.id) = false := by simpa using hb
      simp only [update_docs, hbeq, Bool.false_eq_true, if_false]
      have hdl : d ∈ l1 := by
        rcases List.mem_cons.mp hd with h | h
        · exact absurd (ra.1.trans (show a.id = d.id by rw [h])) hb
        · exact h
      exact List.Forall₂.cons ra (ih hnd.2 d hdl t ht)

/-! ### Evaluation equations for `update_document_tags`,
`sync_document_owner_tag` and `full_sync_step`, one per control-flow
branch of the source. -/

theorem upd_eq_true (w : World) (did : Nat) (ts : List Nat)
    (h : w.updateOk = true) :
    update_document_tags w did ts
      = (true, { w with docs := update_docs w.docs did ts }) := by
  simp [update_document_tags, h]

theorem upd_eq_false (w : World) (did : Nat) (ts : List Nat)
    (h : w.updateOk = false) :
    update_document_tags w did ts = (false, w) := by
  simp [update_document_tags, h]

theorem sync_eq_nodoc (cfg : Config) (w : World) (did : Nat)
    (hdoc : get_document w did = none) :
    sync_document_owner_tag cfg w did = (false, w) := by
  simp only [sync_document_owner_tag, hdoc]

theorem sync_eq_noowner (cfg : Config) (w : World) (did : Nat) (d : Document)
    (hdoc : get_document w did = some d)
    (hu : owner_username (get_users w) d = none) :
    sync_document_owner_tag cfg w did = (true, w) := by
  simp only [sync_document_owner_tag, hdoc, hu]

theorem sync_eq_found_mem (cfg : Config) (w : World) (did : Nat)
    (d : Document) (u : String) (tid : Nat)
    (hdoc : get_document w did = some d)
    (hu : owner_username (get_users w) d = some u)
    (ht : alookup (get_owner_tag_name cfg u) (get_tags w) = some tid)
    (hmem : tid ∈ d.tags) :
    sync_document_owner_tag cfg w did = (true, w) := by
  simp only [sync_document_owner_tag, hdoc, hu, ht, if_pos hmem]

theorem sync_eq_found_notmem (cfg : Config) (w : World) (did : Nat)
    (d : Document) (u : String) (tid : Nat)
    (hdoc : get_document w did = some d)
    (hu : owner_username (get_users w) d = some u)
    (ht : alookup (get_owner_tag_name cfg u) (get_tags w) = some tid)
    (hmem : tid ∉ d.tags) :
    sync_document_owner_tag cfg w did
      = update_document_tags w did (d.tags ++ [tid]) := by
  simp only [sync_document_owner_tag, hdoc, hu, ht, if_neg hmem]

theorem sync_eq_mapped_missing (cfg : Config) (w : World) (did : Nat)
    (d : Document) (u : String)
    (hdoc : get_document w did = some d)
    (hu : owner_username (get_users w) d = some u)
    (ht : alookup (get_owner_tag_name cfg u) (get_tags w) = none)
    (hmap : (alookup u cfg.owner_tag_mapping).isSome = true) :
    sync_document_owner_tag cfg w did = (false, w) := by
  simp only [sync_document_owner_tag, hdoc, hu, ht, if_pos hmap]

theorem sync_eq_create_fail (cfg : Config) (w : World) (did : Nat)
    (d : Document) (u : String) (w1 : World)
    (hdoc : get_document w did = some d)
    (hu : owner_username (get_users w) d = some u)
    (ht : alookup (get_owner_tag_name cfg u) (get_tags w) = none)
    (hmap : (alookup u cfg.owner_tag_mapping).isSome = false)
    (hc : create_tag w (get_owner_tag_name cfg u) = (none, w1)) :
    sync_document_owner_tag cfg w did = (false, w1) := by
  simp only [sync_document_owner_tag, hdoc, hu, ht, hmap, hc,
    Bool.false_eq_true, if_false]

theorem sync_eq_create_mem (cfg : Config) (w : World) (did : Nat)
    (d : Document) (u : String) (tid : Nat) (w1 : World)
    (hdoc : get_document w did = some d)
    (hu : owner_username (get_users w) d = some u)
    (ht : alookup (get_owner_tag_name cfg u) (get_tags w) = none)
    (hmap : (alookup u cfg.owner_tag_mapping).isSome = false)
    (hc : create_tag w (get_owner_tag_name cfg u) = (some tid, w1))
    (hmem : tid ∈ d.tags) :
    sync_document_owner_tag cfg w did = (true, w1) := by
  simp only [sync_document_owner_tag, hdoc, hu, ht, hmap, hc,
    Bool.false_eq_true, if_false, if_pos hmem]

theorem sync_eq_create_notmem (cfg : Config) (w : World) (did : Nat)
    (d : Document) (u : String) (tid : Nat) (w1 : World)
    (hdoc : get_document w did = some d)
    (hu : owner_username (get_users w) d = some u)
    (ht : alookup (get_owner_tag_name cfg u) (get_tags w) = none)
    (hmap : (alookup u cfg.owner_tag_mapping).isSome = false)
    (hc : create_tag w (get_owner_tag_name cfg u) = (some tid, w1))
    (hmem : tid ∉ d.tags) :
    sync_document_owner_tag cfg w did
      = update_document_tags w1 did (d.tags ++ [tid]) := by
  simp only [sync_document_owner_tag, hdoc, hu, ht, hmap, hc,
    Bool.false_eq_true, if_false, if_neg hmem]

/-- The only write `sync_document_owner_tag` ever performs on the document
store is the patch of the fetched document's tag list with one new id
appended. -/
theorem sync_docs_effect (cfg : Config) (w : World) (did : Nat) :
    (sync_document_owner_tag cfg w did).2.docs = w.docs ∨
    ∃ d t, get_document w did = some d ∧ t ∉ d.tags ∧
      (sync_document_owner_tag cfg w did).2.docs
        = update_docs w.docs did (d.tags ++ [t]) := by
  cases hdoc : get_document w did with
  | none => rw [sync_eq_nodoc cfg w did hdoc]; exact Or.inl rfl
  | some d =>
    cases hu : owner_username (get_users w) d with
    | none => rw [sync_eq_noowner cfg w did d hdoc hu]; exact Or.inl rfl
    | some u =>
      cases ht : alookup (get_owner_tag_name cfg u) (get_tags w) with
      | some tid =>
        by_cases hmem : tid ∈ d.tags
        · rw [sync_eq_found_mem cfg w did d u tid hdoc hu ht hmem]
          exact Or.inl rfl
        · rw [sync_eq_found_notmem cfg w did d u tid hdoc hu ht hmem]
          cases hup : w.updateOk with
          | false => rw [upd_eq_false w did _ hup]; exact Or.inl rfl
          | true =>
            rw [upd_eq_true w did _ hup]
            exact Or.inr ⟨d, tid, rfl, hmem, rfl⟩
      | none =>
        cases hmap : (alookup u cfg.owner_tag_mapping).isSome with
        | true =>
          rw [sync_eq_mapped_missing cfg w did d u hdoc hu ht hmap]
          exact Or.inl rfl
        | false =>
          cases hc : create_tag w (get_owner_tag_name cfg u) with
          | mk o w1 =>
            cases o with
            | none =>
              rw [sync_eq_create_fail cfg w did d u w1 hdoc hu ht hmap hc]
              rw [create_tag_none w _ w1 hc]
              exact Or.inl rfl
            | some tid =>
              have hdocs : w1.docs = w.docs := by
                rw [← create_tag_docs w (get_owner_tag_name cfg u), hc]
              by_cases hmem : tid ∈ d.tags
              · rw [sync_eq_create_mem cfg w did d u tid w1 hdoc hu ht hmap
                  hc hmem]
                exact Or.inl hdocs
              · rw [sync_eq_create_notmem cfg w did d u tid w1 hdoc hu ht hmap
                  hc hmem]
                cases hup : w1.updateOk with
                | false => rw [upd_eq_false w1 did _ hup]; exact Or.inl hdocs
                | true =>
                  rw [upd_eq_true w1 did _ hup]
                  exact Or.inr ⟨d, tid, rfl, hmem, by rw [hdocs]⟩

theorem step_eq_noowner (cfg : Config) (users : List (Nat × String))
    (stats : Stats) (tags : List (String × Nat)) (w : World) (d : Document)
    (hu : owner_username users d = none) :
    full_sync_step cfg users (stats, tags, w) d
      = ({ stats with processed := stats.processed + 1 }, tags, w) := by
  simp only [full_sync_step, hu]

theorem step_eq_found_mem (cfg : Config) (users : List (Nat × String))
    (stats : Stats) (tags : List (String × Nat)) (w : World) (d : Document)
    (u : String) (tid : Nat)
    (hu : owner_username users d = some u)
    (ht : alookup (get_owner_tag_name cfg u) tags = some tid)
    (hmem : tid ∈ d.tags) :
    full_sync_step cfg users (stats, tags, w) d
      = ({ stats with processed := stats.processed + 1,
                      succeeded := stats.succeeded + 1 }, tags, w) := by
  simp only [full_sync_step, hu, ht, if_pos hmem]

theorem step_eq_found_notmem (cfg : Config) (users : List (Nat × String))
    (stats : Stats) (tags : List (String × Nat)) (w : World) (d : Document)
    (u : String) (tid : Nat) (b : Bool) (w1 : World)
    (hu : owner_username users d = some u)
    (ht : alookup (get_owner_tag_name cfg u) tags = some tid)
    (hmem : tid ∉ d.tags)
    (hupd : update_document_tags w d.id (d.tags ++ [tid]) = (b, w1)) :
    full_sync_step cfg users (stats, tags, w) d
      = (if b then
           { stats with processed := stats.processed + 1,
                        succeeded := stats.succeeded + 1 }
         else
           { stats with processed := stats.processed + 1,
                        failed := stats.failed + 1 }, tags, w1) := by
  cases b with
  | true => simp only [full_sync_step, hu, ht, if_neg hmem, hupd, if_true]
  | false =>
    simp only [full_sync_step, hu, ht, if_neg hmem, hupd,
      Bool.false_eq_true, if_false]

theorem step_eq_mapped_missing (cfg : Config) (users : List (Nat × String))
    (stats : Stats) (tags : List (String × Nat)) (w : World) (d : Document)
    (u : String)
    (hu : owner_username users d = some u)
    (ht : alookup (get_owner_tag_name cfg u) tags = none)
    (hmap : (alookup u cfg.owner_tag_mapping).isSome = true) :
    full_sync_step cfg users (stats, tags, w) d
      = ({ stats with processed := stats.processed + 1,
                      failed := stats.failed + 1 }, tags, w) := by
  simp only [full_sync_step, hu, ht, if_pos hmap]

theorem step_eq_create_fail (cfg : Config) (users : List (Nat × String))
    (stats : Stats) (tags : List (String × Nat)) (w : World) (d : Document)
    (u : String) (w1 : World)
    (hu : owner_username users d = some u)
    (ht : alookup (get_owner_tag_name cfg u) tags = none)
    (hmap : (alookup u cfg.owner_tag_mapping).isSome = false)
    (hc : create_tag w (get_owner_tag_name cfg u) = (none, w1)) :
    full_sync_step cfg users (stats, tags, w) d
      = ({ stats with processed := stats.processed + 1,
                      failed := stats.failed + 1 }, tags, w1) := by
  simp only [full_sync_step, hu, ht, hmap, hc, Bool.false_eq_true, if_false]

theorem step_eq_create_mem (cfg : Config) (users : List (Nat × String))
    (stats : Stats) (tags : List (String × Nat)) (w : World) (d : Document)
    (u : String) (tid : Nat) (w1 : World)
    (hu : owner_username users d = some u)
    (ht : alookup (get_owner_tag_name cfg u) tags = none)
    (hmap : (alookup u cfg.owner_tag_mapping).isSome = false)
    (hc : create_tag w (get_owner_tag_name cfg u) = (some tid, w1))
    (hmem : tid ∈ d.tags) :
    full_sync_step cfg users (stats, tags, w) d
      = ({ stats with processed := stats.processed + 1,
                      succeeded := stats.succeeded + 1 },
         tags ++ [(get_owner_tag_name cfg u, tid)], w1) := by
  simp only [full_sync_step, hu, ht, hmap, hc, Bool.false_eq_true, if_false,
    if_pos hmem]

theorem step_eq_create_notmem (cfg : Config) (users : List (Nat × String))
    (stats : Stats) (tags : List (String × Nat)) (w : World) (d : Document)
    (u : String) (tid : Nat) (w1 : World) (b : Bool) (w2 : World)
    (hu : owner_username users d = some u)
    (ht : alookup (get_owner_tag_name cfg u) tags = none)
    (hmap : (alookup u cfg.owner_tag_mapping).isSome = false)
    (hc : create_tag w (get_owner_tag_name cfg u) = (some tid, w1))
    (hmem : tid ∉ d.tags)
    (hupd : update_document_tags w1 d.id (d.tags ++ [tid]) = (b, w2)) :
    full_sync_step cfg users (stats, tags, w) d
      = (if b then
           { stats with processed := stats.processed + 1,
                        succeeded := stats.succeeded + 1 }
         else
           { stats with processed := stats.processed + 1,
                        failed := stats.failed + 1 },
         tags ++ [(get_owner_tag_name cfg u, tid)], w2) := by
  cases b with
  | true =>
    simp only [full_sync_step, hu, ht, hmap, hc, Bool.false_eq_true, if_false,
      if_neg hmem, hupd, if_true]
  | false =>
    simp only [full_sync_step, hu, ht, hmap, hc, Bool.false_eq_true, if_false,
      if_neg hmem, hupd]

/-! ### Idempotence of single-document reconciliation -/

theorem get_document_update (w : World) (did : Nat) (ts : List Nat)
    (d : Document) (h : get_document w did = some d) :
    get_document { w with docs := update_docs w.docs did ts } did
      = some { d with tags := ts } :=
  find_update_docs w.docs did ts d h

/-- Creating a tag whose name is already registered on the server fails:
the remote platform rejects duplicate tag names. -/
theorem create_tag_eq_found (w : World) (n : String) (tid : Nat)
    (h : alookup n w.tags = some tid) : create_tag w n = (none, w) := by
  unfold create_tag
  rw [if_neg]
  rintro ⟨-, h2⟩
  rw [h] at h2
  simp at h2

/-- Reconciling a document that already carries a tag id whose resolved
name is registered on the server changes nothing (whether or not the tag
snapshot fetch succeeds). -/
theorem sync_snd_server_tag_mem (cfg : Config) (w : World) (did : Nat)
    (d : Document) (u : String) (tid : Nat)
    (hdoc : get_document w did = some d)
    (hu : owner_username (get_users w) d = some u)
    (hmap : (alookup u cfg.owner_tag_mapping).isSome = false)
    (hserver : alookup (get_owner_tag_name cfg u) w.tags = some tid)
    (hmem : tid ∈ d.tags) :
    (sync_document_owner_tag cfg w did).2 = w := by
  cases htf : w.tagsFetchOk with
  | true =>
    have ht2 : alookup (get_owner_tag_name cfg u) (get_tags w) = some tid := by
      simpa [get_tags, htf] using hserver
    rw [sync_eq_found_mem cfg w did d u tid hdoc hu ht2 hmem]
  | false =>
    have ht2 : alookup (get_owner_tag_name cfg u) (get_tags w) = none := by
      simp [get_tags, htf, alookup]
    rw [sync_eq_create_fail cfg w did d u w hdoc hu ht2 hmap
      (create_tag_eq_found w _ tid hserver)]

/-- Reconciling when the resolved name is registered on the server, the
document does not carry the id, and patches fail: no state change. -/
theorem sync_snd_server_tag_noupd (cfg : Config) (w : World) (did : Nat)
    (d : Document) (u : String) (tid : Nat)
    (hdoc : get_document w did = some d)
    (hu : owner_username (get_users w) d = some u)
    (hmap : (alookup u cfg.owner_tag_mapping).isSome = false)
    (hserver : alookup (get_owner_tag_name cfg u) w.tags = some tid)
    (hmem : tid ∉ d.tags) (hup : w.updateOk = false) :
    (sync_document_owner_tag cfg w did).2 = w := by
  cases htf : w.tagsFetchOk with
  | true =>
    have ht2 : alookup (get_owner_tag_name cfg u) (get_tags w) = some tid := by
      simpa [get_tags, htf] using hserver
    rw [sync_eq_found_notmem cfg w did d u tid hdoc hu ht2 hmem,
      upd_eq_false w did _ hup]
  | false =>
    have ht2 : alookup (get_owner_tag_name cfg u) (get_tags w) = none := by
      simp [get_tags, htf, alookup]
    rw [sync_eq_create_fail cfg w did d u w hdoc hu ht2 hmap
      (create_tag_eq_found w _ tid hserver)]

/-- Whatever world a first reconciliation of `did` produces, reconciling
`did` again leaves that world untouched. -/
theorem sync_second_world (cfg : Config) (w : World) (did : Nat) :
    ∀ b1 w1, sync_document_owner_tag cfg w did = (b1, w1) →
    (sync_document_owner_tag cfg w1 did).2 = w1 := by
  intro b1 w1 heq
  cases hdoc : get_document w did with
  | none =>
    rw [sync_eq_nodoc cfg w did hdoc] at heq
    injection heq with h1 h2
    subst h2
    rw [sync_eq_nodoc cfg w did hdoc]
  | some d =>
    cases hu : owner_username (get_users w) d with
    | none =>
      rw [sync_eq_noowner cfg w did d hdoc hu] at heq
      injection heq with h1 h2
      subst h2
      rw [sync_eq_noowner cfg w did d hdoc hu]
    | some u =>
      cases ht : alookup (get_owner_tag_name cfg u) (get_tags w) with
      | some tid =>
        by_cases hmem : tid ∈ d.tags
        · rw [sync_eq_found_mem cfg w did d u tid hdoc hu ht hmem] at heq
          injection heq with h1 h2
          subst h2
          rw [sync_eq_found_mem cfg w did d u tid hdoc hu ht hmem]
        · rw [sync_eq_found_notmem cfg w did d u tid hdoc hu ht hmem] at heq
          cases hup : w.updateOk with
          | false =>
            rw [upd_eq_false w did _ hup] at heq
            injection heq with h1 h2
            subst h2
            rw [sync_eq_found_notmem cfg w did d u tid hdoc hu ht hmem,
              upd_eq_false w did _ hup]
          | true =>
            rw [upd_eq_true w did _ hup] at heq
            injection heq with h1 h2
            subst h2
            have hdoc2 := get_document_update w did (d.tags ++ [tid]) d hdoc
            rw [sync_eq_found_mem cfg _ did _ u tid hdoc2 hu ht (by simp)]
      | none =>
        cases hmap : (alookup u cfg.owner_tag_mapping).isSome with
        | true =>
          rw [sync_eq_mapped_missing cfg w did d u hdoc hu ht hmap] at heq
          injection heq with h1 h2
          subst h2
          rw [sync_eq_mapped_missing cfg w did d u hdoc hu ht hmap]
        | false =>
          cases hc : create_tag w (get_owner_tag_name cfg u) with
          | mk o wc =>
            cases o with
            | none =>
              have hwc := create_tag_none w _ wc hc
              subst hwc
              rw [sync_eq_create_fail cfg wc did d u wc hdoc hu ht hmap hc]
                at heq
              injection heq with h1 h2
              subst h2
              rw [sync_eq_create_fail cfg wc did d u wc hdoc hu ht hmap hc]
            | some tid =>
              obtain ⟨htid, hcok, halook, hw1⟩ :=
                create_tag_some w _ tid wc hc
              subst hw1
              generalize hW : ({ w with
                tags := w.tags ++ [(get_owner_tag_name cfg u, tid)],
                nextTagId := w.nextTagId + 1 } : World) = W at hc
              have hWdoc : get_document W did = some d := by
                rw [← hW]; exact hdoc
              have hWu : owner_username (get_users W) d = some u := by
                rw [← hW]; exact hu
              have hWtags :
                  W.tags = w.tags ++ [(get_owner_tag_name cfg u, tid)] := by
                rw [← hW]
              have hWup : W.updateOk = w.updateOk := by rw [← hW]
              have hWserver :
                  alookup (get_owner_tag_name cfg u) W.tags = some tid := by
                rw [hWtags, alookup_append_of_none _ _ _ halook]
                exact alookup_singleton_self _ _
              by_cases hmem : tid ∈ d.tags
              · rw [sync_eq_create_mem cfg w did d u tid W hdoc hu ht hmap hc
                  hmem] at heq
                injection heq with h1 h2
                subst h2
                exact sync_snd_server_tag_mem cfg W did d u tid hWdoc hWu
                  hmap hWserver hmem
              · rw [sync_eq_create_notmem cfg w did d u tid W hdoc hu ht hmap
                  hc hmem] at heq
                cases hup : w.updateOk with
                | false =>
                  rw [upd_eq_false W did _ (hWup.trans hup)] at heq
                  injection heq with h1 h2
                  subst h2
                  exact sync_snd_server_tag_noupd cfg W did d u tid hWdoc hWu
                    hmap hWserver hmem (hWup.trans hup)
                | true =>
                  rw [upd_eq_true W did _ (hWup.trans hup)] at heq
                  injection heq with h1 h2
                  subst h2
                  have hdoc2 := get_document_update W did (d.tags ++ [tid]) d
                    hWdoc
                  exact sync_snd_server_tag_mem cfg _ did
                    { d with tags := d.tags ++ [tid] } u tid hdoc2 hWu hmap
                    hWserver (by simp)

/-- The only write one iteration of the `full_sync` loop performs on the
document store is the patch of the current document's tag list with one new
id appended. -/
theorem full_sync_step_docs (cfg : Config) (users : List (Nat × String))
    (st : Stats × List (String × Nat) × World) (d : Document) :
    (full_sync_step cfg users st d).2.2.docs = st.2.2.docs ∨
    ∃ t, t ∉ d.tags ∧
      (full_sync_step cfg users st d).2.2.docs
        = update_docs st.2.2.docs d.id (d.tags ++ [t]) := by
  obtain ⟨stats, tags, w⟩ := st
  cases hu : owner_username users d with
  | none => rw [step_eq_noowner cfg users stats tags w d hu]; exact Or.inl rfl
  | some u =>
    cases ht : alookup (get_owner_tag_name cfg u) tags with
    | some tid =>
      by_cases hmem : tid ∈ d.tags
      · rw [step_eq_found_mem cfg users stats tags w d u tid hu ht hmem]
        exact Or.inl rfl
      · cases hup : w.updateOk with
        | false =>
          rw [step_eq_found_notmem cfg users stats tags w d u tid false w
            hu ht hmem (upd_eq_false w d.id _ hup)]
          exact Or.inl rfl
        | true =>
          rw [step_eq_found_notmem cfg users stats tags w d u tid true
            { w with docs := update_docs w.docs d.id (d.tags ++ [tid]) }
            hu ht hmem (upd_eq_true w d.id _ hup)]
          exact Or.inr ⟨tid, hmem, rfl⟩
    | none =>
      cases hmap : (alookup u cfg.owner_tag_mapping).isSome with
      | true =>
        rw [step_eq_mapped_missing cfg users stats tags w d u hu ht hmap]
        exact Or.inl rfl
      | false =>
        cases hc : create_tag w (get_owner_tag_name cfg u) with
        | mk o w1 =>
          cases o with
          | none =>
            rw [step_eq_create_fail cfg users stats tags w d u w1 hu ht
              hmap hc]
            rw [create_tag_none w _ w1 hc]
            exact Or.inl rfl
          | some tid =>
            have hdocs : w1.docs = w.docs := by
              rw [← create_tag_docs w (get_owner_tag_name cfg u), hc]
            by_cases hmem : tid ∈ d.tags
            · rw [step_eq_create_mem cfg users stats tags w d u tid w1 hu ht
                hmap hc hmem]
              exact Or.inl hdocs
            · cases hup : w1.updateOk with
              | false =>
                rw [step_eq_create_notmem cfg users stats tags w d u tid w1
                  false w1 hu ht hmap hc hmem (upd_eq_false w1 d.id _ hup)]
                exact Or.inl hdocs
              | true =>
                rw [step_eq_create_notmem cfg users stats tags w d u tid w1
                  true { w1 with
                    docs := update_docs w1.docs d.id (d.tags ++ [tid]) }
                  hu ht hmap hc hmem (upd_eq_true w1 d.id _ hup)]
                exact Or.inr ⟨tid, hmem, by rw [hdocs]⟩

/-! ### `full_sync` evaluation and counter lemmas -/

theorem full_sync_eq_empty (cfg : Config) (w : World)
    (hd : get_all_documents w = []) :
    full_sync cfg w
      = ({ total := 0, processed := 0, succeeded := 0, failed := 0 }, w) := by
  simp only [full_sync, hd, List.isEmpty_nil, if_true]

theorem full_sync_eq_cons (cfg : Config) (w : World) (a : Document)
    (l : List Document) (hd : get_all_documents w = a :: l) :
    full_sync cfg w
      = (((a :: l).foldl (full_sync_step cfg (get_users w))
            ({ total := (a :: l).length, processed := 0, succeeded := 0,
               failed := 0 }, get_tags w, w)).1,
         ((a :: l).foldl (full_sync_step cfg (get_users w))
            ({ total := (a :: l).length, processed := 0, succeeded := 0,
               failed := 0 }, get_tags w, w)).2.2) := by
  simp only [full_sync, hd, List.isEmpty_cons, Bool.false_eq_true, if_false]

/-- Every loop iteration increments `processed` by one and leaves `total`
alone, whatever the outcome. -/
theorem step_stats (cfg : Config) (users : List (Nat × String))
    (st : Stats × List (String × Nat) × World) (d : Document) :
    (full_sync_step cfg users st d).1.processed = st.1.processed + 1 ∧
    (full_sync_step cfg users st d).1.total = st.1.total := by
  obtain ⟨stats, tags, w⟩ := st
  cases hu : owner_username users d with
  | none => rw [step_eq_noowner cfg users stats tags w d hu]; exact ⟨rfl, rfl⟩
  | some u =>
    cases ht : alookup (get_owner_tag_name cfg u) tags with
    | some tid =>
      by_cases hmem : tid ∈ d.tags
      · rw [step_eq_found_mem cfg users stats tags w d u tid hu ht hmem]
        exact ⟨rfl, rfl⟩
      · cases hupd : update_document_tags w d.id (d.tags ++ [tid]) with
        | mk b w1 =>
          rw [step_eq_found_notmem cfg users stats tags w d u tid b w1 hu ht
            hmem hupd]
          cases b <;> exact ⟨rfl, rfl⟩
    | none =>
      cases hmap : (alookup u cfg.owner_tag_mapping).isSome with
      | true =>
        rw [step_eq_mapped_missing cfg users stats tags w d u hu ht hmap]
        exact ⟨rfl, rfl⟩
      | false =>
        cases hc : create_tag w (get_owner_tag_name cfg u) with
        | mk o w1 =>
          cases o with
          | none =>
            rw [step_eq_create_fail cfg users stats tags w d u w1 hu ht hmap
              hc]
            exact ⟨rfl, rfl⟩
          | some tid =>
            by_cases hmem : tid ∈ d.tags
            · rw [step_eq_create_mem cfg users stats tags w d u tid w1 hu ht
                hmap hc hmem]
              exact ⟨rfl, rfl⟩
            · cases hupd : update_document_tags w1 d.id (d.tags ++ [tid]) with
              | mk b w2 =>
                rw [step_eq_create_notmem cfg users stats tags w d u tid w1 b
                  w2 hu ht hmap hc hmem hupd]
                cases b <;> exact ⟨rfl, rfl⟩

theorem fold_stats (cfg : Config) (users : List (Nat × String)) :
    ∀ (ds : List Document) (st : Stats × List (String × Nat) × World),
    (ds.foldl (full_sync_step cfg users) st).1.processed
      = st.1.processed + ds.length ∧
    (ds.foldl (full_sync_step cfg users) st).1.total = st.1.total := by
  intro ds
  induction ds with
  | nil => intro st; exact ⟨rfl, rfl⟩
  | cons d ds ih =>
    intro st
    rw [List.foldl_cons]
    obtain ⟨hp, htot⟩ := ih (full_sync_step cfg users st d)
    obtain ⟨hp1, htot1⟩ := step_stats cfg users st d
    constructor
    · rw [hp, hp1, List.length_cons]
      omega
    · rw [htot, htot1]

/-- Every document of the batch snapshot lives in the server store. -/
theorem get_all_documents_sub (w : World) :
    ∀ d, d ∈ get_all_documents w → d ∈ w.docs := by
  intro d hdm
  unfold get_all_documents at hdm
  split at hdm
  · exact hdm
  · simp at hdm

theorem fold_docs_additive (cfg : Config) (users : List (Nat × String))
    (orig : List Document) (hnd : (orig.map Document.id).Nodup) :
    ∀ (ds : List Document) (st : Stats × List (String × Nat) × World),
    (∀ d, d ∈ ds → d ∈ orig) →
    List.Forall₂ tags_preserved orig st.2.2.docs →
    List.Forall₂ tags_preserved orig
      ((ds.foldl (full_sync_step cfg users) st)).2.2.docs := by
  intro ds
  induction ds with
  | nil => intro st _ hF; exact hF
  | cons d ds ih =>
    intro st hmem hF
    rw [List.foldl_cons]
    apply ih
    · intro x hx
      exact hmem x (List.mem_cons_of_mem d hx)
    · rcases full_sync_step_docs cfg users st d with he | ⟨t, ht, he⟩
      · rw [he]; exact hF
      · rw [he]
        exact forall2_update_mem orig st.2.2.docs hF hnd d
          (hmem d (List.mem_cons_self d ds)) t ht

theorem full_sync_docs_additive (cfg : Config) (w : World)
    (hnd : (w.docs.map Document.id).Nodup) :
    List.Forall₂ tags_preserved w.docs (full_sync cfg w).2.docs := by
  cases hd : get_all_documents w with
  | nil =>
    rw [full_sync_eq_empty cfg w hd]
    exact tags_preserved_refl w.docs
  | cons a l =>
    rw [full_sync_eq_cons cfg w a l hd]
    apply fold_docs_additive cfg (get_users w) w.docs hnd (a :: l)
    · intro d hdm
      exact get_all_documents_sub w d (hd ▸ hdm)
    · exact tags_preserved_refl w.docs

/-! ### Claim theorems -/

/-- Claim C1: if the username is a key of the owner-to-tag mapping,
`get_owner_tag_name` returns the mapped value verbatim, independently of
the configured prefix; otherwise it returns the prefix concatenated with
the username.  The function is a total Lean function, hence pure and
defined for every username. -/
theorem claim_resolve_tag_name (cfg : Config) (u : String) :
    (∀ t, alookup u cfg.owner_tag_mapping = some t →
      ∀ p : String, get_owner_tag_name { cfg with pfx := p } u = t) ∧
    (alookup u cfg.owner_tag_mapping = none →
      get_owner_tag_name cfg u = cfg.pfx ++ u) := by
  constructor
  · intro t ht p
    simp [get_owner_tag_name, ht]
  · intro hn
    simp [get_owner_tag_name, hn]

def cfgC1 : Config :=
  { pfx := "owner:", owner_tag_mapping := [("jane", "Jane-Documents")] }

theorem claim_resolve_tag_name_witness :
    alookup "jane" cfgC1.owner_tag_mapping = some "Jane-Documents" ∧
    get_owner_tag_name { cfgC1 with pfx := "x:" } "jane" = "Jane-Documents" ∧
    alookup "bob" cfgC1.owner_tag_mapping = none ∧
    get_owner_tag_name cfgC1 "bob" = "owner:bob" := by
  refine ⟨rfl, ?_, rfl, ?_⟩
  · exact (claim_resolve_tag_name cfgC1 "jane").1 "Jane-Documents" rfl "x:"
  · exact (claim_resolve_tag_name cfgC1 "bob").2 rfl

/-- Claim C4: a document whose owner's username has an explicit mapping
entry whose mapped tag name is missing from the tag directory fails
reconciliation (Python `False`, the `MappedTagMissing` condition) with the
world — tag directory and document store — left untouched; the `full_sync`
loop counts such a document as failed, again without touching the world or
the in-memory tag dict. -/
theorem claim_mapped_tag_missing (cfg : Config) :
    (∀ w did d u, get_document w did = some d →
      owner_username (get_users w) d = some u →
      (alookup u cfg.owner_tag_mapping).isSome = true →
      alookup (get_owner_tag_name cfg u) (get_tags w) = none →
      sync_document_owner_tag cfg w did = (false, w)) ∧
    (∀ users stats tags w d u, owner_username users d = some u →
      (alookup u cfg.owner_tag_mapping).isSome = true →
      alookup (get_owner_tag_name cfg u) tags = none →
      full_sync_step cfg users (stats, tags, w) d
        = ({ stats with processed := stats.processed + 1,
                        failed := stats.failed + 1 }, tags, w)) := by
  constructor
  · intro w did d u hdoc hu hmap ht
    exact sync_eq_mapped_missing cfg w did d u hdoc hu ht hmap
  · intro users stats tags w d u hu hmap ht
    exact step_eq_mapped_missing cfg users stats tags w d u hu ht hmap

def cfgC4 : Config :=
  { pfx := "owner:", owner_tag_mapping := [("jane", "Jane-Documents")] }

def dC4 : Document := { id := 10, title := "d", owner := some 2, tags := [4] }

def wC4 : World :=
  { docs := [dC4], users := [(2, "jane")], tags := [("owner:jane", 9)],
    usersFetchOk := true, tagsFetchOk := true, docsFetchOk := true,
    createOk := true, updateOk := true, nextTagId := 50 }

theorem claim_mapped_tag_missing_witness :
    get_document wC4 10 = some dC4 ∧
    owner_username (get_users wC4) dC4 = some "jane" ∧
    (alookup "jane" cfgC4.owner_tag_mapping).isSome = true ∧
    alookup (get_owner_tag_name cfgC4 "jane") (get_tags wC4) = none ∧
    sync_document_owner_tag cfgC4 wC4 10 = (false, wC4) := by
  refine ⟨rfl, rfl, rfl, rfl, ?_⟩
  exact (claim_mapped_tag_missing cfgC4).1 wC4 10 dC4 "jane" rfl rfl rfl rfl

/-- Claim C7: `extract_document_id_from_url` captures the digits of a URL
ending in `/documents/<digits>/` (trailing slash optional), else those of a
`document_id=<digits>` query parameter, the first pattern taking precedence
when both could apply, and yields `none` when neither pattern matches; in
particular the three documented examples. -/
theorem claim_extract_id :
    extract_document_id_from_url "https://host/documents/55/" = some 55 ∧
    extract_document_id_from_url "https://host/documents/55" = some 55 ∧
    extract_document_id_from_url "https://host/api?document_id=77"
      = some 77 ∧
    extract_document_id_from_url "https://host/other" = none ∧
    extract_document_id_from_url
      "https://host/x?document_id=77/documents/55/" = some 55 := by
  exact ⟨rfl, rfl, rfl, rfl, rfl⟩

/-- Claim C9 (implicit): when the users fetch fails, `get_users` returns
the empty directory, so every fetched document — owner or not — is skipped
as ownerless and reported as a success; a users-fetch network error is
indistinguishable from the document having no owner. -/
theorem claim_users_fetch_failure_skips (cfg : Config) (w : World)
    (did : Nat) (d : Document) (hw : w.usersFetchOk = false)
    (hdoc : get_document w did = some d) :
    sync_document_owner_tag cfg w did = (true, w) := by
  have hu : owner_username (get_users w) d = none := by
    rw [show get_users w = [] by simp [get_users, hw]]
    exact owner_username_nil d
  exact sync_eq_noowner cfg w did d hdoc hu

def cfgC9 : Config := { pfx := "owner:", owner_tag_mapping := [] }

def dC9 : Document := { id := 3, title := "t", owner := some 7, tags := [1] }

def wC9 : World :=
  { docs := [dC9], users := [(7, "alice")], tags := [],
    usersFetchOk := false, tagsFetchOk := true, docsFetchOk := true,
    createOk := true, updateOk := true, nextTagId := 10 }

theorem claim_users_fetch_failure_skips_witness :
    wC9.usersFetchOk = false ∧ get_document wC9 3 = some dC9 ∧
    sync_document_owner_tag cfgC9 wC9 3 = (true, wC9) :=
  ⟨rfl, rfl, claim_users_fetch_failure_skips cfgC9 wC9 3 dC9 rfl rfl⟩

/-- Claim C10 (implicit): a webhook URL ending in `/documents/0/` extracts
successfully to the integer 0, yet the handler's falsy check `if not
document_id` treats 0 as a failed extraction and answers 400 without
reconciling — document id 0 can never be reconciled through the webhook. -/
theorem claim_webhook_document_zero (cfg : Config) (w : World) :
    extract_document_id_from_url "https://host/documents/0/" = some 0 ∧
    document_webhook cfg w
      { hasJson := true, url := some "https://host/documents/0/" }
      = ((400, none), w) := by
  exact ⟨rfl, rfl⟩

/-- Claim C2: neither single-document reconciliation nor batch
reconciliation ever removes a pre-existing tag id: each document's tag list
is either left unchanged or becomes exactly the old list with one id it did
not already carry appended.  For the batch loop the document ids are the
server's primary keys (pairwise distinct). -/
theorem claim_reconcile_additive :
    (∀ cfg w did, List.Forall₂ tags_preserved w.docs
        (sync_document_owner_tag cfg w did).2.docs) ∧
    (∀ cfg w, (w.docs.map Document.id).Nodup →
      List.Forall₂ tags_preserved w.docs (full_sync cfg w).2.docs) := by
  constructor
  · intro cfg w did
    rcases sync_docs_effect cfg w did with he | ⟨d, t, hdoc, ht, he⟩
    · rw [he]
      exact tags_preserved_refl w.docs
    · rw [he]
      exact forall2_update_self w.docs did d hdoc t ht
  · intro cfg w hnd
    exact full_sync_docs_additive cfg w hnd

def cfgC2 : Config := { pfx := "owner:", owner_tag_mapping := [] }

def wC2 : World :=
  { docs := [{ id := 1, title := "a", owner := some 1, tags := [7] },
             { id := 2, title := "b", owner := none, tags := [3] }],
    users := [(1, "alice")], tags := [], usersFetchOk := true,
    tagsFetchOk := true, docsFetchOk := true, createOk := true,
    updateOk := true, nextTagId := 20 }

theorem claim_reconcile_additive_witness :
    (wC2.docs.map Document.id).Nodup ∧
    List.Forall₂ tags_preserved wC2.docs (full_sync cfgC2 wC2).2.docs :=
  ⟨by decide, claim_reconcile_additive.2 cfgC2 wC2 (by decide)⟩

/-- Claim C3: if the resolved owner-tag id is already in the document's tag
set, reconciliation mutates nothing and reports success; and reconciling
the same document twice in sequence leaves the world produced by the first
call — in particular the document's tag set — exactly as it was, so
repeated calls converge and never attach a duplicate. -/
theorem claim_reconcile_idempotent (cfg : Config) (w : World) (did : Nat) :
    (∀ d u tid, get_document w did = some d →
      owner_username (get_users w) d = some u →
      alookup (get_owner_tag_name cfg u) (get_tags w) = some tid →
      tid ∈ d.tags →
      sync_document_owner_tag cfg w did = (true, w)) ∧
    (sync_document_owner_tag cfg
        (sync_document_owner_tag cfg w did).2 did).2
      = (sync_document_owner_tag cfg w did).2 := by
  constructor
  · intro d u tid hdoc hu ht hmem
    exact sync_eq_found_mem cfg w did d u tid hdoc hu ht hmem
  · exact sync_second_world cfg w did (sync_document_owner_tag cfg w did).1
      (sync_document_owner_tag cfg w did).2 rfl

def cfgC3 : Config := { pfx := "owner:", owner_tag_mapping := [] }

def dC3 : Document := { id := 1, title := "t", owner := some 1, tags := [5] }

def wC3 : World :=
  { docs := [dC3], users := [(1, "alice")], tags := [("owner:alice", 5)],
    usersFetchOk := true, tagsFetchOk := true, docsFetchOk := true,
    createOk := true, updateOk := true, nextTagId := 100 }

theorem claim_reconcile_idempotent_witness :
    get_document wC3 1 = some dC3 ∧
    owner_username (get_users wC3) dC3 = some "alice" ∧
    alookup (get_owner_tag_name cfgC3 "alice") (get_tags wC3) = some 5 ∧
    5 ∈ dC3.tags ∧
    sync_document_owner_tag cfgC3 wC3 1 = (true, wC3) := by
  refine ⟨rfl, rfl, rfl, by decide, ?_⟩
  exact (claim_reconcile_idempotent cfgC3 wC3 1).1 dC3 "alice" 5 rfl rfl rfl
    (by decide)

/-- Claim C5 as stated is false on the code: a document with no valid owner
increments `processed` but neither `succeeded` nor `failed` — the loop just
`continue`s — while the claim says `succeeded` increments for the no-owner
outcome.  Concrete run: one ownerless document gives `processed = 1` and
`succeeded = 0`. -/
theorem claim_counters_counterexample :
    (full_sync { pfx := "owner:", owner_tag_mapping := [] }
      { docs := [{ id := 1, title := "t", owner := none, tags := [] }],
        users := [], tags := [], usersFetchOk := true, tagsFetchOk := true,
        docsFetchOk := true, createOk := true, updateOk := true,
        nextTagId := 1 }).1.processed = 1 ∧
    (full_sync { pfx := "owner:", owner_tag_mapping := [] }
      { docs := [{ id := 1, title := "t", owner := none, tags := [] }],
        users := [], tags := [], usersFetchOk := true, tagsFetchOk := true,
        docsFetchOk := true, createOk := true, updateOk := true,
        nextTagId := 1 }).1.succeeded = 0 := by
  exact ⟨rfl, rfl⟩

/-- Claim C5 amended: `total` is the number of fetched documents and
`processed` increments for every document; `succeeded` increments exactly
for the already-tagged and successfully-updated outcomes (a document with
no valid owner increments only `processed`); `failed` increments exactly
for the missing-mapped-tag, tag-create-failure and update-failure
outcomes. -/
theorem claim_counters_amended (cfg : Config) (w : World)
    (hne : get_all_documents w ≠ []) :
    ((full_sync cfg w).1.total = (get_all_documents w).length ∧
     (full_sync cfg w).1.processed = (get_all_documents w).length) ∧
    (∀ users stats tags w0 d,
      (full_sync_step cfg users (stats, tags, w0) d).1.processed
        = stats.processed + 1 ∧
      (full_sync_step cfg users (stats, tags, w0) d).1.total
        = stats.total) ∧
    (∀ users stats tags w0 d, owner_username users d = none →
      full_sync_step cfg users (stats, tags, w0) d
        = ({ stats with processed := stats.processed + 1 }, tags, w0)) ∧
    (∀ users stats tags w0 d u tid, owner_username users d = some u →
      alookup (get_owner_tag_name cfg u) tags = some tid → tid ∈ d.tags →
      full_sync_step cfg users (stats, tags, w0) d
        = ({ stats with processed := stats.processed + 1,
                        succeeded := stats.succeeded + 1 }, tags, w0)) ∧
    (∀ users stats tags w0 d u, owner_username users d = some u →
      alookup (get_owner_tag_name cfg u) tags = none →
      (alookup u cfg.owner_tag_mapping).isSome = true →
      full_sync_step cfg users (stats, tags, w0) d
        = ({ stats with processed := stats.processed + 1,
                        failed := stats.failed + 1 }, tags, w0)) ∧
    (∀ users stats tags w0 d u w1, owner_username users d = some u →
      alookup (get_owner_tag_name cfg u) tags = none →
      (alookup u cfg.owner_tag_mapping).isSome = false →
      create_tag w0 (get_owner_tag_name cfg u) = (none, w1) →
      full_sync_step cfg users (stats, tags, w0) d
        = ({ stats with processed := stats.processed + 1,
                        failed := stats.failed + 1 }, tags, w1)) ∧
    (∀ users stats tags w0 d u tid b w1, owner_username users d = some u →
      alookup (get_owner_tag_name cfg u) tags = some tid → tid ∉ d.tags →
      update_document_tags w0 d.id (d.tags ++ [tid]) = (b, w1) →
      (full_sync_step cfg users (stats, tags, w0) d).1.succeeded
          = (if b then stats.succeeded + 1 else stats.succeeded) ∧
      (full_sync_step cfg users (stats, tags, w0) d).1.failed
          = (if b then stats.failed else stats.failed + 1)) ∧
    (∀ users stats tags w0 d u tid w1 b w2, owner_username users d = some u →
      alookup (get_owner_tag_name cfg u) tags = none →
      (alookup u cfg.owner_tag_mapping).isSome = false →
      create_tag w0 (get_owner_tag_name cfg u) = (some tid, w1) →
      tid ∉ d.tags →
      update_document_tags w1 d.id (d.tags ++ [tid]) = (b, w2) →
      (full_sync_step cfg users (stats, tags, w0) d).1.succeeded
          = (if b then stats.succeeded + 1 else stats.succeeded) ∧
      (full_sync_step cfg users (stats, tags, w0) d).1.failed
          = (if b then stats.failed else stats.failed + 1)) := by
  refine ⟨?_, ?_, ?_, ?_, ?_, ?_, ?_, ?_⟩
  · cases hd : get_all_documents w with
    | nil => exact absurd hd hne
    | cons a l =>
      rw [full_sync_eq_cons cfg w a l hd]
      have h := fold_stats cfg (get_users w) (a :: l)
        ({ total := (a :: l).length, processed := 0, succeeded := 0,
           failed := 0 }, get_tags w, w)
      constructor
      · exact h.2
      · simpa using h.1
  · intro users stats tags w0 d
    exact step_stats cfg users (stats, tags, w0) d
  · intro users stats tags w0 d hu
    exact step_eq_noowner cfg users stats tags w0 d hu
  · intro users stats tags w0 d u tid hu ht hmem
    exact step_eq_found_mem cfg users stats tags w0 d u tid hu ht hmem
  · intro users stats tags w0 d u hu ht hmap
    exact step_eq_mapped_missing cfg users stats tags w0 d u hu ht hmap
  · intro users stats tags w0 d u w1 hu ht hmap hc
    exact step_eq_create_fail cfg users stats tags w0 d u w1 hu ht hmap hc
  · intro users stats tags w0 d u tid b w1 hu ht hmem hupd
    rw [step_eq_found_notmem cfg users stats tags w0 d u tid b w1 hu ht hmem
      hupd]
    cases b <;> exact ⟨rfl, rfl⟩
  · intro users stats tags w0 d u tid w1 b w2 hu ht hmap hc hmem hupd
    rw [step_eq_create_notmem cfg users stats tags w0 d u tid w1 b w2 hu ht
      hmap hc hmem hupd]
    cases b <;> exact ⟨rfl, rfl⟩

def cfgC5 : Config := { pfx := "owner:", owner_tag_mapping := [] }

def wC5 : World :=
  { docs := [{ id := 1, title := "t", owner := none, tags := [] },
             { id := 2, title := "u", owner := some 1, tags := [5] }],
    users := [(1, "alice")], tags := [("owner:alice", 5)],
    usersFetchOk := true, tagsFetchOk := true, docsFetchOk := true,
    createOk := true, updateOk := true, nextTagId := 9 }

theorem claim_counters_amended_witness :
    get_all_documents wC5 ≠ [] ∧
    (full_sync cfgC5 wC5).1.total = (get_all_documents wC5).length ∧
    (full_sync cfgC5 wC5).1.processed = (get_all_documents wC5).length := by
  refine ⟨by decide, ?_, ?_⟩
  · exact (claim_counters_amended cfgC5 wC5 (by decide)).1.1
  · exact (claim_counters_amended cfgC5 wC5 (by decide)).1.2

/-- Claim C6 as stated is false on the code: only a failed (or empty)
document fetch aborts with the zero result.  A failed user-directory fetch
returns the empty dict and the sync proceeds: with one document the result
has `total = 1` and `processed = 1`, not the zero result the claim
requires. -/
theorem claim_zero_result_counterexample :
    ({ docs := [{ id := 1, title := "t", owner := some 1, tags := [] }],
       users := [(1, "alice")], tags := [("owner:alice", 5)],
       usersFetchOk := false, tagsFetchOk := true, docsFetchOk := true,
       createOk := true, updateOk := true,
       nextTagId := 9 } : World).usersFetchOk = false ∧
    (full_sync { pfx := "owner:", owner_tag_mapping := [] }
      { docs := [{ id := 1, title := "t", owner := some 1, tags := [] }],
        users := [(1, "alice")], tags := [("owner:alice", 5)],
        usersFetchOk := false, tagsFetchOk := true, docsFetchOk := true,
        createOk := true, updateOk := true, nextTagId := 9 }).1.total = 1 ∧
    (full_sync { pfx := "owner:", owner_tag_mapping := [] }
      { docs := [{ id := 1, title := "t", owner := some 1, tags := [] }],
        users := [(1, "alice")], tags := [("owner:alice", 5)],
        usersFetchOk := false, tagsFetchOk := true, docsFetchOk := true,
        createOk := true, updateOk := true,
        nextTagId := 9 }).1.processed = 1 := by
  exact ⟨rfl, rfl, rfl⟩

/-- Claim C6 amended: a failed document fetch (the Python code then sees
the empty list — as does a genuinely empty collection) aborts `full_sync`
before processing any document, with the zero result; failures of the user
or tag directory fetches do not abort the sync. -/
theorem claim_zero_result_amended (cfg : Config) (w : World) :
    (w.docsFetchOk = false →
      full_sync cfg w
        = ({ total := 0, processed := 0, succeeded := 0, failed := 0 }, w)) ∧
    (get_all_documents w = [] →
      full_sync cfg w
        = ({ total := 0, processed := 0, succeeded := 0,
             failed := 0 }, w)) := by
  constructor
  · intro h
    exact full_sync_eq_empty cfg w (by simp [get_all_documents, h])
  · intro h
    exact full_sync_eq_empty cfg w h

def cfgC6 : Config := { pfx := "owner:", owner_tag_mapping := [] }

def wC6 : World :=
  { docs := [{ id := 1, title := "t", owner := some 1, tags := [] }],
    users := [(1, "alice")], tags := [], usersFetchOk := true,
    tagsFetchOk := true, docsFetchOk := false, createOk := true,
    updateOk := true, nextTagId := 9 }

theorem claim_zero_result_amended_witness :
    wC6.docsFetchOk = false ∧
    full_sync cfgC6 wC6
      = ({ total := 0, processed := 0, succeeded := 0, failed := 0 }, wC6) :=
  ⟨rfl, (claim_zero_result_amended cfgC6 wC6).1 rfl⟩

/-- Claim C8 as stated is false on the code: a JSON body with no `url`
field is not rejected with 400 — the handler answers 200 with status
`ignored`. -/
theorem claim_webhook_400_counterexample :
    document_webhook { pfx := "owner:", owner_tag_mapping := [] }
      { docs := [], users := [], tags := [], usersFetchOk := true,
        tagsFetchOk := true, docsFetchOk := true, createOk := true,
        updateOk := true, nextTagId := 1 }
      { hasJson := true, url := none }
      = ((200, none),
         { docs := [], users := [], tags := [], usersFetchOk := true,
           tagsFetchOk := true, docsFetchOk := true, createOk := true,
           updateOk := true, nextTagId := 1 }) := by
  exact rfl

/-- Claim C8 amended: a request with no truthy JSON body is rejected with
400 and no reconciliation; a JSON body whose `url` field is missing or
empty is answered 200 (status `ignored`) with no reconciliation; a url from
which no document id can be extracted — or whose extracted id is the falsy
0 — is rejected with 400 and no reconciliation; a processed request returns
200 with the document id on reconciliation success and 500 on failure. -/
theorem claim_webhook_amended (cfg : Config) (w : World) :
    (∀ p : WebhookPayload, p.hasJson = false →
      document_webhook cfg w p = ((400, none), w)) ∧
    (document_webhook cfg w { hasJson := true, url := none }
      = ((200, none), w)) ∧
    (document_webhook cfg w { hasJson := true, url := some "" }
      = ((200, none), w)) ∧
    (∀ u, u ≠ "" → extract_document_id_from_url u = none →
      document_webhook cfg w { hasJson := true, url := some u }
        = ((400, none), w)) ∧
    (∀ u, u ≠ "" → extract_document_id_from_url u = some 0 →
      document_webhook cfg w { hasJson := true, url := some u }
        = ((400, none), w)) ∧
    (∀ u n, u ≠ "" → extract_document_id_from_url u = some (n + 1) →
      document_webhook cfg w { hasJson := true, url := some u }
        = ((if (sync_document_owner_tag cfg w (n + 1)).1 then 200 else 500,
            some (n + 1)),
           (sync_document_owner_tag cfg w (n + 1)).2)) := by
  refine ⟨?_, rfl, rfl, ?_, ?_, ?_⟩
  · intro p hp
    simp [document_webhook, hp]
  · intro u hu hext
    simp [document_webhook, hu, hext]
  · intro u hu hext
    simp [document_webhook, hu, hext]
  · intro u n hu hext
    simp [document_webhook, hu, hext]

def cfgC8 : Config := { pfx := "owner:", owner_tag_mapping := [] }

def wC8 : World :=
  { docs := [], users := [], tags := [], usersFetchOk := true,
    tagsFetchOk := true, docsFetchOk := true, createOk := true,
    updateOk := true, nextTagId := 1 }

theorem claim_webhook_amended_witness :
    ("https://host/other" ≠ "") ∧
    extract_document_id_from_url "https://host/other" = none ∧
    document_webhook cfgC8 wC8
      { hasJson := true, url := some "https://host/other" }
      = ((400, none), wC8) := by
  refine ⟨by decide, rfl, ?_⟩
  exact (claim_webhook_amended cfgC8 wC8).2.2.2.1 "https://host/other"
    (by decide) rfl

end Paperless
